import Mathlib

/-!
Shallow embedding of the concurrent_unordered_map and spinlock of this repository
(src/unittests.cpp, namespace boost::spinlock), specialised to Key = T = Nat and
executed single-threadedly: every lock acquisition either succeeds at once or, if
the lock cell is already held, spins forever, which we model as a hang.

Modelling conventions, each noted again at the definition it concerns:
- the item array of a bucket is a List item_type; the source keeps a count field
  that equals the allocated length after every resize and is zero exactly when the
  items pointer is null, so the null pointer is represented by the empty list;
- loops whose iteration count is not structurally bounded (the retry loop of
  bucket find, the resize-and-retry loop of bucket insert, the find loop of map
  insert) take an explicit fuel argument; exhausting the fuel returns cerr.hang,
  which is exactly the states in which the single-threaded source spins forever;
- allocation and construction outcomes are passed in as booleans (the allocator
  may throw bad_alloc, construction of the value may throw a user error); a heap
  counter of live allocations is threaded through to observe leaks;
- the source file is known to contain slips that do not compile; where a repaired
  reading is forced to give the code any semantics at all (an undeclared name, a
  member access that does not exist), the repair follows the evident intent named
  by the specification and is recorded in a comment at the definition.
-/

namespace CUM

/-- value_type = std::pair of const Key and T, with Key = T = Nat. -/
abbrev value_type := Nat × Nat

/-- Errors surfaced by the embedded operations. bad_alloc is std::bad_alloc from
allocate or from resize; construct_fail is a user exception thrown by the value
constructor; runtime is std::runtime_error; hang marks a state in which the
single-threaded source spins forever (or the fuel ran out). -/
inductive cerr where
  | bad_alloc
  | construct_fail
  | runtime (msg : String)
  | hang
deriving DecidableEq, Repr

/-- item_type of concurrent_unordered_map: a spinlock cell holding an owned
pointer to the value (locked is the lock bit of the cell, p its payload pointer)
and the cached hash. -/
structure item_type where
  locked : Bool
  p : Option value_type
  hash : Nat
deriving DecidableEq, Repr

/-- A zero-initialised slot, as produced by memset in bucket resize: lock bit
clear, null pointer, hash zero. -/
def zero_item : item_type := { locked := false, p := none, hash := 0 }

/-- item_type::set: requires the slot lock to be held; p.set installs the freshly
allocated (hence non-null) pointer and the hash is written after it. The lock
bit is left as it was. -/
def item_type.set (i : item_type) (ret : value_type) (h : Nat) : item_type :=
  { i with p := some ret, hash := h }

/-- item_type::detach: move-constructs the spinlock cell out of the slot, which
atomically leaves the cell null and unlocked, then zeroes the hash when the
extracted pointer was non-null. Returns the emptied slot and the extracted
pointer. -/
def item_type.detach (i : item_type) : item_type × Option value_type :=
  ({ locked := false, p := none, hash := if i.p.isSome then 0 else i.hash }, i.p)

/-- Replace the slot at an index by f of it; out-of-range indices leave the list
unchanged (the source would be indexing outside the allocation there). -/
def modify_at (items : List item_type) (i : Nat) (f : item_type → item_type) :
    List item_type :=
  match items[i]? with
  | none => items
  | some it => items.set i (f it)

/-- bucket_type::resize(newsize): after excluding other users, realloc (or
malloc when items is null) the slot array to newsize slots and memset the slots
past the old count to zero; count is then published as newsize. realloc
preserves the first min(count, newsize) slots, and on failure leaves the old
block and the bucket fields untouched, so the pair returned carries the bucket
state even on the bad_alloc path. alloc_ok says whether the allocation
succeeds. -/
def bucket_type.resize (items : List item_type) (newsize : Nat) (alloc_ok : Bool) :
    List item_type × Except cerr Unit :=
  if alloc_ok then
    ((items.take newsize) ++ List.replicate (newsize - items.length) zero_item,
      Except.ok ())
  else (items, Except.error cerr.bad_alloc)

/-- bucket_type::remove(offset): lock the slot at offset (a hang if it is
already held; none models that, and also an offset outside the allocation),
detach its pointer, and destroy and deallocate the extracted value outside the
scope (heap drops by one when a value was extracted). -/
def bucket_type.remove (items : List item_type) (off : Nat) (heap : Nat) :
    Option (List item_type × Nat) :=
  match items[off]? with
  | none => none
  | some it =>
    if it.locked then none
    else
      let d := it.detach
      some (modify_at items off (fun _ => d.1),
        match d.2 with
        | some _ => heap - 1
        | none => heap)

/-- The concurrent_unordered_map, reduced to the fields the claims are about:
the atomic size counter and the bucket vector. -/
structure concurrent_unordered_map where
  size : Nat
  buckets : List (List item_type)
deriving DecidableEq, Repr

/-- concurrent_unordered_map(n): constructs the bucket vector with n buckets,
or one bucket when n is zero. -/
def cmap_new (n : Nat) : concurrent_unordered_map :=
  { size := 0, buckets := List.replicate (if 0 < n then n else 1) [] }

/-- The default constructor: 13 buckets. -/
def cmap_default : concurrent_unordered_map :=
  { size := 0, buckets := List.replicate 13 [] }

/-- _get_bucket: the bucket index of a hash is the hash modulo the number of
buckets. -/
def _get_bucket (m : concurrent_unordered_map) (h : Nat) : Nat :=
  h % m.buckets.length

/-- reserve(n): rejected with a runtime_error while the size counter is
non-zero; otherwise std::vector::resize of the bucket vector to n buckets,
keeping the existing buckets up to n and default-constructing the rest. -/
def cmap_reserve (m : concurrent_unordered_map) (n : Nat) :
    concurrent_unordered_map × Except cerr Unit :=
  if m.size ≠ 0 then
    (m, Except.error (cerr.runtime "Cannot currently rehash existing content!"))
  else
    ({ m with buckets := (m.buckets.take n) ++
        List.replicate (n - m.buckets.length) [] }, Except.ok ())

/-- The map iterator: a bucket index and a slot offset (the parent pointer is
implicit; the end iterator has bucket index equal to the number of buckets). -/
structure iterator where
  bi : Nat
  off : Nat
deriving DecidableEq, Repr

/-- iterator::operator++: at the end iterator do nothing; otherwise increment
the offset and, when it reaches the bucket count, step to the next bucket at
offset zero. The source checks nothing about the slot contents. -/
def iterator.inc (m : concurrent_unordered_map) (it : iterator) : iterator :=
  if it.bi = m.buckets.length then it
  else
    let c := (m.buckets.getD it.bi []).length
    if c ≤ it.off + 1 then { bi := it.bi + 1, off := 0 }
    else { bi := it.bi, off := it.off + 1 }

/-- erase(iterator): calls bucket remove at the iterator offset — the source
writes remove(allocator, ret._itb->_offset); the undeclared allocator is the
map member _allocator and the offset member lives on the iterator, not the
bucket, so the evident reading is the iterator offset — then advances the
returned iterator by operator++. The size counter is not touched anywhere in
this function. -/
def cmap_erase (m : concurrent_unordered_map) (it : iterator) (heap : Nat) :
    Option (concurrent_unordered_map × iterator × Nat) :=
  let items := m.buckets.getD it.bi []
  match bucket_type.remove items it.off heap with
  | none => none
  | some r =>
    let m2 : concurrent_unordered_map :=
      { m with buckets := m.buckets.set it.bi r.1 }
    some (m2, iterator.inc m2 it, r.2)

/-- The number of live (non-null pointer) slots across all buckets. -/
def live_count (m : concurrent_unordered_map) : Nat :=
  (m.buckets.map (fun items => (items.filter (fun it => it.p.isSome)).length)).sum

/-- The slot invariant of the data model: an empty (null-pointer) slot has hash
zero. -/
def slot_inv (it : item_type) : Prop := it.p = none → it.hash = 0

instance (it : item_type) : Decidable (slot_inv it) := by
  unfold slot_inv; infer_instance

/-- Emptiness of a slot as the source tests it: the payload pointer is null. -/
def item_empty (it : item_type) : Prop := it.p = none

instance (it : item_type) : Decidable (item_empty it) := by
  unfold item_empty; infer_instance

end CUM

namespace CUM

/-! Spinlock, single-threaded model. Modelled from the spec: the spinlock class
itself lives in spinlock.hpp, which is not among the provided sources; only its
uses appear in src/unittests.cpp. Following the specification of the
lockable-pointer cell: the state is one word, false = unlocked, true = locked;
try_lock atomically transitions unlocked to locked and reports success; unlock
clears the lock; lock busy-waits on try_lock, which for a single thread on an
already-held lock never succeeds (modelled as none). -/

/-- Modelled from the spec: spinlock try_lock — succeeds exactly on an unlocked
cell, leaving it locked; returns (success, new state). -/
def spinlock_try_lock (s : Bool) : Bool × Bool :=
  if s then (false, s) else (true, true)

/-- Modelled from the spec: spinlock unlock — clears the lock flag. -/
def spinlock_unlock (_s : Bool) : Bool := false

/-- Modelled from the spec: spinlock lock (used by the scoped lock_guard) —
busy-waits on try_lock; a single thread acquiring an unlocked cell succeeds at
once, and spins forever (none) on a cell it already holds. -/
def spinlock_lock (s : Bool) : Option Bool :=
  if s then none else some true

end CUM

namespace CUM

/-- The inner skip loop of bucket_type::find, scanning the suffix of the item
array that starts at absolute index i: advance while the cached hash differs
from the probed hash, and while the empty-out pointer is still armed (ea)
record into e the absolute index of the first empty (null-pointer) slot passed
and disarm the pointer, exactly as the source clears the pointer after the
first recording. Returns the absolute index of the first hash match, if any,
with the final recording state. -/
def find_scan : List item_type → Nat → Nat → Option Nat → Bool →
    Option Nat × Option Nat × Bool
  | [], _, _, e, ea => (none, e, ea)
  | it :: rest, i, h, e, ea =>
    if it.hash = h then (some i, e, ea)
    else if ea = true ∧ it.p = none then find_scan rest (i + 1) h (some i) false
    else find_scan rest (i + 1) h e ea

/-- Result of one bucket find: a locked match at an index, no match, or a state
the single-threaded source never leaves. -/
inductive find_res where
  | found (idx : Nat)
  | not_found
  | hang
deriving DecidableEq, Repr

/-- bucket_type::find(start, hash, empty): scan from start (the head when start
is null), skipping slots whose cached hash differs and recording the first
empty slot while the empty pointer is armed; on a hash match, lock the slot — a
slot already held makes the blocking p.lock spin forever single-threadedly,
which is the hang result — then recheck the hash and that the pointer is
non-null; on success the matching index is returned with its slot locked (the
caller adopts and releases that lock in every path, so the item array is
represented unchanged); on a failed recheck the slot is unlocked and the scan
loop re-enters at the same index, revisiting the same slot forever, which the
fuel turns into hang. -/
def bucket_find (fuel : Nat) (items : List item_type) (start : Option Nat)
    (h : Nat) (e : Option Nat) (ea : Bool) : find_res × Option Nat × Bool :=
  match fuel with
  | 0 => (find_res.hang, e, ea)
  | fuel + 1 =>
    let s := start.getD 0
    match find_scan (items.drop s) s h e ea with
    | (none, e1, ea1) => (find_res.not_found, e1, ea1)
    | (some idx, e1, ea1) =>
      match items[idx]? with
      | none => (find_res.not_found, e1, ea1)
      | some it =>
        if it.locked then (find_res.hang, e1, ea1)
        else if it.p.isSome then (find_res.found idx, e1, ea1)
        else bucket_find fuel items (some idx) h e1 ea1

/-- The empty-slot scan of bucket_type::insert over the suffix of the item
array starting at absolute index i: the first slot whose pointer loads as null
and whose cell try_lock succeeds, which single-threadedly is the first slot
with null pointer and clear lock bit. -/
def scan_empty : List item_type → Nat → Option Nat
  | [], _ => none
  | it :: rest, i =>
    if it.p = none ∧ it.locked = false then some i else scan_empty rest (i + 1)

/-- The claim loop of bucket_type::insert: inside a using scope, scan from the
hint for an empty slot and claim it by try_lock, and read the count; leaving
the scope, call resize(count + count/2) — the source performs this resize
whether or not a slot was claimed — and retry while no slot was claimed.
resize_ok says whether the allocation inside resize succeeds; its failure
propagates out of the loop. -/
def bucket_insert_loop (fuel : Nat) (items : List item_type) (hint : Nat)
    (resize_ok : Bool) : List item_type × Except cerr Nat :=
  match fuel with
  | 0 => (items, Except.error cerr.hang)
  | fuel + 1 =>
    let off := scan_empty (items.drop hint) hint
    let items1 :=
      match off with
      | some o => modify_at items o (fun it => { it with locked := true })
      | none => items
    let newsize := items.length + items.length / 2
    let r2 := bucket_type.resize items1 newsize resize_ok
    match r2.2 with
    | Except.error e => (r2.1, Except.error e)
    | Except.ok _ =>
      match off with
      | some o => (r2.1, Except.ok o)
      | none => bucket_insert_loop fuel r2.1 hint resize_ok

/-- bucket_type::insert(allocator, v, hash, hint): claim an empty slot through
the resize-and-retry loop, then allocate and construct the value and publish it
into the claimed slot with set, returning the offset (the slot lock taken at
claim time is still set on return; the source never releases it after set). On
an allocation failure nothing was allocated and the catch block unlocks the
slot and rethrows. On a construction failure the catch block unlocks the slot
and deallocates the outer ret pointer, which is still null because the
allocation result was bound to a shadowing inner ret declared inside the try
block; the heap counter therefore stays one above its entry value — the
allocated block leaks. -/
def bucket_type.insert (fuel : Nat) (items : List item_type) (v : value_type)
    (h hint : Nat) (resize_ok alloc_ok construct_ok : Bool) (heap : Nat) :
    List item_type × Nat × Except cerr Nat :=
  match bucket_insert_loop fuel items hint resize_ok with
  | (items1, Except.error e) => (items1, heap, Except.error e)
  | (items1, Except.ok off) =>
    if alloc_ok = false then
      (modify_at items1 off (fun it => { it with locked := false }), heap,
        Except.error cerr.bad_alloc)
    else if construct_ok = false then
      (modify_at items1 off (fun it => { it with locked := false }), heap + 1,
        Except.error cerr.construct_fail)
    else
      (modify_at items1 off (fun it => it.set v h), heap + 1, Except.ok off)

/-- Result of the find phase of map insert: an equal key found at an index, no
equal key with the recorded first-empty offset, or a state the single-threaded
source never leaves. -/
inductive insert_find_res where
  | dup (idx : Nat)
  | fresh (emptyIdx : Nat)
  | hang
deriving DecidableEq, Repr

/-- The find phase of concurrent_unordered_map::insert: repeatedly call the
bucket find starting at the previously found item (initially null), passing the
address of emptyidx while emptyidx is still zero; on a locked match, adopt the
lock, compare keys under it and release it at the end of the iteration; equal
keys end the loop as a duplicate at that index; unequal keys continue the loop
from the same item, which finds the same slot again and never terminates. No
match ends the loop carrying the recorded empty offset (zero when none was
recorded, as emptyidx is initialised to zero). -/
def insert_find_loop (fuel : Nat) (items : List item_type) (start : Option Nat)
    (h k : Nat) (emptyIdx : Nat) : insert_find_res :=
  match fuel with
  | 0 => insert_find_res.hang
  | fuel + 1 =>
    match bucket_find (fuel + 1) items start h none (emptyIdx == 0) with
    | (find_res.hang, _, _) => insert_find_res.hang
    | (find_res.not_found, e1, _) =>
      insert_find_res.fresh (if emptyIdx = 0 then e1.getD 0 else emptyIdx)
    | (find_res.found idx, e1, _) =>
      match items[idx]? with
      | none => insert_find_res.hang
      | some it =>
        match it.p with
        | none => insert_find_res.hang
        | some kv =>
          if kv.1 = k then insert_find_res.dup idx
          else insert_find_loop fuel items (some idx) h k
            (if emptyIdx = 0 then e1.getD 0 else emptyIdx)

/-- concurrent_unordered_map::insert(v): hash the key — the source reads the
undeclared name k here; the evident intent named by the specification is the
key of the inserted value — select the bucket, run the find phase recording the
first empty offset, and on an equal key return the pair (iterator to it,
false); otherwise call the bucket insert with the recorded empty offset as hint
— the source passes the undeclared name hash; the evident intent is the
computed hash — then increment the size counter and return (iterator to the
new slot, true). The ok result carries the bucket index and slot offset of the
returned iterator and the boolean of the returned pair. -/
def cmap_insert (fuel : Nat) (hasher : Nat → Nat)
    (m : concurrent_unordered_map) (v : value_type)
    (resize_ok alloc_ok construct_ok : Bool) (heap : Nat) :
    concurrent_unordered_map × Nat × Except cerr (Nat × Nat × Bool) :=
  let h := hasher v.1
  let bi := _get_bucket m h
  let items := m.buckets.getD bi []
  match insert_find_loop fuel items none h v.1 0 with
  | insert_find_res.hang => (m, heap, Except.error cerr.hang)
  | insert_find_res.dup idx => (m, heap, Except.ok (bi, idx, false))
  | insert_find_res.fresh emptyIdx =>
    match bucket_type.insert fuel items v h emptyIdx resize_ok alloc_ok
        construct_ok heap with
    | (items1, heap1, Except.error e) =>
      ({ m with buckets := m.buckets.set bi items1 }, heap1, Except.error e)
    | (items1, heap1, Except.ok off) =>
      ({ size := m.size + 1, buckets := m.buckets.set bi items1 }, heap1,
        Except.ok (bi, off, true))

/-- Does some live slot of the item array hold the key. -/
def bucket_contains (items : List item_type) (k : Nat) : Bool :=
  items.any (fun it =>
    match it.p with
    | some kv => kv.1 == k
    | none => false)

/-- Does some bucket of the map hold a live slot with the key. -/
def cmap_contains (m : concurrent_unordered_map) (k : Nat) : Bool :=
  m.buckets.any (fun items => bucket_contains items k)

deriving instance DecidableEq for Except

/-- A slot holding the live entry (5, 7) cached under hash 5, the concrete
slot the failing-input evaluations use. -/
def live_slot_57 : item_type := { locked := false, p := some (5, 7), hash := 5 }

/-- A map holding the single live entry (5, 7) in its one bucket, with the
size counter at 1; the failing input of the erase evaluation. -/
def map_single_57 : concurrent_unordered_map :=
  { size := 1, buckets := [[live_slot_57]] }

/-- A map whose one bucket holds the live entry (5, 7) at offset 0 and an
empty slot at offset 1; the failing input of the iterator evaluation. -/
def map_live_then_empty : concurrent_unordered_map :=
  { size := 1, buckets := [[live_slot_57, zero_item]] }

/-- Well-formedness of a map state, satisfied by every state the intended API
can reach: the cached hash of a live slot is the hash of its key, and a live
slot sits in the bucket its hash selects. -/
def wf_map (hasher : Nat → Nat) (m : concurrent_unordered_map) : Bool :=
  m.buckets.enum.all (fun bitems =>
    bitems.2.all (fun it =>
      match it.p with
      | some kv =>
        it.hash == hasher kv.1 && hasher kv.1 % m.buckets.length == bitems.1
      | none => true))

end CUM

namespace CUM

/-- Claim C10: constructing a concurrent_unordered_map with requested bucket
count n produces max(n, 1) buckets, the default constructor produces 13, and on
a freshly constructed map the bucket selection hash modulo bucket count is a
well-defined index below the bucket count (no division by zero). -/
theorem claim_C10_ctor_buckets (n k : Nat) :
    (cmap_new n).buckets.length = max n 1 ∧
    cmap_default.buckets.length = 13 ∧
    _get_bucket (cmap_new n) k < (cmap_new n).buckets.length := by
  have hlen : (cmap_new n).buckets.length = max n 1 := by
    simp only [cmap_new, List.length_replicate]
    rcases Nat.eq_zero_or_pos n with h | h
    · subst h; decide
    · rw [if_pos h]
      exact (Nat.max_eq_left h).symm
  refine ⟨hlen, by simp [cmap_default], ?_⟩
  have hpos : 0 < (cmap_new n).buckets.length := by
    rw [hlen]; exact lt_of_lt_of_le Nat.one_pos (le_max_right n 1)
  exact Nat.mod_lt _ hpos

/-- Claim C9: the single-threaded spinlock scenario S1 — on a fresh (unlocked)
lock the first try_lock returns true, a second try_lock returns false, unlock
releases, a scoped guard then acquires the lock, and while the guard holds it
try_lock returns false. Modelled from the spec (spinlock.hpp is not among the
provided sources). -/
theorem claim_C9_spinlock_s1 :
    (spinlock_try_lock false).1 = true ∧
    (spinlock_try_lock (spinlock_try_lock false).2).1 = false ∧
    spinlock_lock
        (spinlock_unlock (spinlock_try_lock (spinlock_try_lock false).2).2) =
      some true ∧
    (spinlock_try_lock true).1 = false := by
  decide

/-- Unfolding equation of a successful resize. -/
theorem resize_ok_eq (items : List item_type) (n : Nat) :
    bucket_type.resize items n true =
      ((items.take n) ++ List.replicate (n - items.length) zero_item,
        Except.ok ()) := rfl

/-- Unfolding equation of a failed resize. -/
theorem resize_fail_eq (items : List item_type) (n : Nat) :
    bucket_type.resize items n false = (items, Except.error cerr.bad_alloc) := rfl

/-- Length of the item array after a successful resize. -/
theorem resize_ok_length (items : List item_type) (n : Nat) :
    (bucket_type.resize items n true).1.length = n := by
  rw [resize_ok_eq]
  simp only [List.length_append, List.length_take, List.length_replicate]
  omega

/-- Slot contents after a successful resize: slots below the old count are
preserved, slots at or above it are zero-initialised. -/
theorem resize_ok_getElem (items : List item_type) (n j : Nat) (hj : j < n) :
    (bucket_type.resize items n true).1[j]? =
      if j < items.length then items[j]? else some zero_item := by
  rw [resize_ok_eq]
  by_cases hjl : j < items.length
  · rw [if_pos hjl]
    rw [List.getElem?_append_left (by simp [List.length_take]; omega)]
    exact List.getElem?_take_of_lt hj
  · rw [if_neg hjl]
    rw [List.getElem?_append_right (by simp [List.length_take]; omega)]
    rw [List.getElem?_replicate_of_lt (by simp [List.length_take]; omega)]

/-- Claim C4: bucket resize with a failing allocation surfaces bad_alloc and
returns the items (and hence the count, which is their length) exactly as they
were; a successful resize publishes the new count and zero-initialises every
slot beyond the old count, preserving the slots below it. -/
theorem claim_C4_resize (items : List item_type) (n : Nat) :
    bucket_type.resize items n false = (items, Except.error cerr.bad_alloc) ∧
    (bucket_type.resize items n true).2 = Except.ok () ∧
    (bucket_type.resize items n true).1.length = n ∧
    (∀ j, j < n →
      (bucket_type.resize items n true).1[j]? =
        if j < items.length then items[j]? else some zero_item) :=
  ⟨resize_fail_eq items n, by rw [resize_ok_eq], resize_ok_length items n,
    fun j hj => resize_ok_getElem items n j hj⟩

/-- Claim C4 witness: resize of a two-slot bucket to three slots succeeds, the
third slot is zeroed; resize with a failing allocation leaves the bucket
unchanged. -/
theorem claim_C4_resize_witness :
    bucket_type.resize [zero_item, zero_item] 3 false =
      ([zero_item, zero_item], Except.error cerr.bad_alloc) ∧
    (bucket_type.resize [zero_item, zero_item] 3 true).1[2]? =
      some zero_item :=
  ⟨(claim_C4_resize [zero_item, zero_item] 3).1,
    by
      have h := (claim_C4_resize [zero_item, zero_item] 3).2.2.2 2 (by decide)
      simpa using h⟩

/-- Claim C5: reserve on a map whose size counter is non-zero throws the
runtime_error and leaves the bucket vector unchanged; on a map whose size
counter is zero it resizes the bucket vector to exactly n buckets. -/
theorem claim_C5_reserve (m : concurrent_unordered_map) (n : Nat) :
    (m.size ≠ 0 →
      cmap_reserve m n =
        (m, Except.error (cerr.runtime "Cannot currently rehash existing content!"))) ∧
    (m.size = 0 →
      (cmap_reserve m n).2 = Except.ok () ∧
      (cmap_reserve m n).1.buckets.length = n ∧
      (cmap_reserve m n).1.size = 0) := by
  constructor
  · intro hne
    simp [cmap_reserve, hne]
  · intro hz
    have hcond : ¬ (m.size ≠ 0) := by simp [hz]
    have heq : cmap_reserve m n =
        ({ m with buckets := (m.buckets.take n) ++
            List.replicate (n - m.buckets.length) [] }, Except.ok ()) := by
      simp only [cmap_reserve, if_neg hcond]
    rw [heq]
    refine ⟨rfl, ?_, hz⟩
    simp only [List.length_append, List.length_take, List.length_replicate]
    omega

/-- Claim C5 witness: reserve on a map with size counter 1 fails and leaves the
single bucket; reserve 4 on an empty map yields 4 buckets. -/
theorem claim_C5_reserve_witness :
    cmap_reserve { size := 1, buckets := [[]] } 4 =
      ({ size := 1, buckets := [[]] },
        Except.error (cerr.runtime "Cannot currently rehash existing content!")) ∧
    (cmap_reserve { size := 0, buckets := [[]] } 4).1.buckets.length = 4 :=
  ⟨(claim_C5_reserve { size := 1, buckets := [[]] } 4).1 (by decide),
    ((claim_C5_reserve { size := 0, buckets := [[]] } 4).2 rfl).2.1⟩

/-- Claim C8: the slot state machine preserves the emptiness invariant. A
zero-initialised slot satisfies it; under the invariant a slot is empty (null
pointer) exactly when its pointer is null and its hash is zero; set installs a
non-null pointer together with its hash and trivially preserves the invariant;
detach empties the slot back to null pointer, zero hash and clear lock bit and
returns the old pointer; and every slot a successful resize places beyond the
old count is the zero slot. -/
theorem claim_C8_slot_invariant (it : item_type) (v : value_type) (h : Nat) :
    slot_inv zero_item ∧
    (slot_inv it → (item_empty it ↔ (it.p = none ∧ it.hash = 0))) ∧
    ((it.set v h).p = some v ∧ (it.set v h).hash = h ∧ slot_inv (it.set v h)) ∧
    (slot_inv it →
      it.detach.1.p = none ∧ it.detach.1.hash = 0 ∧
      it.detach.1.locked = false ∧ it.detach.2 = it.p ∧ slot_inv it.detach.1) ∧
    (∀ items n j, items.length ≤ j → j < n →
      (bucket_type.resize items n true).1[j]? = some zero_item) := by
  refine ⟨by simp [slot_inv, zero_item], ?_, ?_, ?_, ?_⟩
  · intro hinv
    unfold item_empty
    constructor
    · intro hp; exact ⟨hp, hinv hp⟩
    · intro hp; exact hp.1
  · refine ⟨rfl, rfl, ?_⟩
    intro hp
    simp [item_type.set] at hp
  · intro hinv
    have hhash : it.detach.1.hash = 0 := by
      by_cases hp : it.p.isSome
      · simp [item_type.detach, hp]
      · have hnone := Option.not_isSome_iff_eq_none.mp hp
        simp [item_type.detach, hnone, hinv hnone]
    exact ⟨rfl, hhash, rfl, rfl, fun _ => hhash⟩
  · intro items n j hjl hjn
    have h4 := resize_ok_getElem items n j hjn
    rw [h4, if_neg (by omega)]

/-- modify_at preserves the length of the item array. -/
theorem modify_at_length (l : List item_type) (i : Nat)
    (f : item_type → item_type) : (modify_at l i f).length = l.length := by
  unfold modify_at
  cases h : l[i]? with
  | none => rfl
  | some it => simp

/-- modify_at at an index holding a slot replaces it by f of it. -/
theorem modify_at_getElem_self (l : List item_type) (i : Nat)
    (f : item_type → item_type) (it : item_type) (h : l[i]? = some it) :
    (modify_at l i f)[i]? = some (f it) := by
  unfold modify_at
  rw [h]
  have hlt : i < l.length := (List.getElem?_eq_some_iff.mp h).1
  simp [List.getElem?_set_self (by simpa using hlt)]

/-- modify_at leaves every other index unchanged. -/
theorem modify_at_getElem_ne (l : List item_type) (i j : Nat)
    (f : item_type → item_type) (hne : j ≠ i) :
    (modify_at l i f)[j]? = l[j]? := by
  unfold modify_at
  cases h : l[i]? with
  | none => rfl
  | some it => rw [List.getElem?_set_ne (fun he => hne he.symm)]

/-- Soundness of the empty-slot scan: a returned index is at or after the base
index and names an empty, unlocked slot of the scanned suffix. -/
theorem scan_empty_sound (l : List item_type) (i o : Nat)
    (hs : scan_empty l i = some o) :
    i ≤ o ∧ ∃ it, l[o - i]? = some it ∧ it.p = none ∧ it.locked = false := by
  induction l generalizing i with
  | nil => simp [scan_empty] at hs
  | cons hd tl ih =>
    rw [scan_empty] at hs
    by_cases hc : hd.p = none ∧ hd.locked = false
    · rw [if_pos hc] at hs
      obtain rfl : i = o := Option.some.inj hs
      exact ⟨le_refl i, hd, by simp, hc.1, hc.2⟩
    · rw [if_neg hc] at hs
      obtain ⟨hle, it, hget, hp, hl⟩ := ih (i + 1) hs
      refine ⟨by omega, it, ?_, hp, hl⟩
      have hsub : o - i = (o - (i + 1)) + 1 := by omega
      rw [hsub]
      simpa using hget

/-- Completeness of the empty-slot scan: when the scanned suffix holds an
empty, unlocked slot, the scan returns an index. -/
theorem scan_empty_mem (l : List item_type) (i : Nat)
    (hex : ∃ it ∈ l, it.p = none ∧ it.locked = false) :
    ∃ o, scan_empty l i = some o := by
  induction l generalizing i with
  | nil => simp at hex
  | cons hd tl ih =>
    rw [scan_empty]
    by_cases hc : hd.p = none ∧ hd.locked = false
    · exact ⟨i, by rw [if_pos hc]⟩
    · rw [if_neg hc]
      apply ih (i + 1)
      obtain ⟨it, hmem, hcond⟩ := hex
      rcases List.mem_cons.mp hmem with rfl | hmem2
      · exact absurd hcond hc
      · exact ⟨it, hmem2, hcond⟩

/-- One iteration of the claim loop in which the scan claims a slot: the loop
ends with that offset after the unconditional resize. -/
theorem bucket_insert_loop_step_some (fuel : Nat) (items : List item_type)
    (hint o : Nat) (hs : scan_empty (items.drop hint) hint = some o) :
    bucket_insert_loop (fuel + 1) items hint true =
      ((bucket_type.resize
          (modify_at items o (fun it => { it with locked := true }))
          (items.length + items.length / 2) true).1, Except.ok o) := by
  simp only [bucket_insert_loop, hs, resize_ok_eq]

/-- One iteration of the claim loop in which the scan finds nothing: the loop
resizes and retries. -/
theorem bucket_insert_loop_step_none (fuel : Nat) (items : List item_type)
    (hint : Nat) (hs : scan_empty (items.drop hint) hint = none) :
    bucket_insert_loop (fuel + 1) items hint true =
      bucket_insert_loop fuel
        ((bucket_type.resize items (items.length + items.length / 2) true).1)
        hint true := by
  simp only [bucket_insert_loop, hs, resize_ok_eq]

/-- A successful claim loop returns an offset naming a slot of the final item
array that is claimed (locked) and still empty. -/
theorem bucket_insert_loop_ok (fuel : Nat) (items items1 : List item_type)
    (hint o : Nat)
    (hres : bucket_insert_loop fuel items hint true = (items1, Except.ok o)) :
    ∃ it, items1[o]? = some it ∧ it.locked = true ∧ it.p = none := by
  induction fuel generalizing items with
  | zero => simp [bucket_insert_loop] at hres
  | succ fuel ih =>
    cases hs : scan_empty (items.drop hint) hint with
    | none =>
      rw [bucket_insert_loop_step_none fuel items hint hs] at hres
      exact ih _ hres
    | some o1 =>
      rw [bucket_insert_loop_step_some fuel items hint o1 hs] at hres
      rw [Prod.mk.injEq] at hres
      obtain ⟨h1, h2⟩ := hres
      injection h2 with h2
      rw [← h1, ← h2]
      obtain ⟨hle, it0, hget0, hp0, hl0⟩ := scan_empty_sound _ _ _ hs
      rw [List.getElem?_drop] at hget0
      have hget : items[o1]? = some it0 := by
        have harith : hint + (o1 - hint) = o1 := by omega
        rwa [harith] at hget0
      have hlt : o1 < items.length := (List.getElem?_eq_some_iff.mp hget).1
      have hgetm : (modify_at items o1
          (fun it => { it with locked := true }))[o1]? =
          some { it0 with locked := true } :=
        modify_at_getElem_self items o1 _ it0 hget
      have hltm : o1 < (modify_at items o1
          (fun it => { it with locked := true })).length := by
        rw [modify_at_length]; exact hlt
      refine ⟨{ it0 with locked := true }, ?_, rfl, hp0⟩
      rw [resize_ok_getElem _ _ o1 (by omega), if_pos hltm, hgetm]

/-- Unfolding of bucket insert when the claim loop fails. -/
theorem bucket_insert_of_loop_error (fuel : Nat) (items li : List item_type)
    (e : cerr) (v : value_type) (h hint heap : Nat)
    (hloop : bucket_insert_loop fuel items hint true = (li, Except.error e)) :
    bucket_type.insert fuel items v h hint true true true heap =
      (li, heap, Except.error e) := by
  unfold bucket_type.insert
  rw [hloop]

/-- Unfolding of bucket insert when the claim loop succeeds and allocation and
construction both succeed: the claimed slot receives the value via set. -/
theorem bucket_insert_of_loop_ok (fuel : Nat) (items li : List item_type)
    (v : value_type) (h hint heap o : Nat)
    (hloop : bucket_insert_loop fuel items hint true = (li, Except.ok o)) :
    bucket_type.insert fuel items v h hint true true true heap =
      (modify_at li o (fun it => it.set v h), heap + 1, Except.ok o) := by
  unfold bucket_type.insert
  rw [hloop]
  exact rfl

/-- A successful bucket insert with working allocation publishes the value into
the returned offset and raises the heap count by one. -/
theorem bucket_insert_ok (fuel : Nat) (items items1 : List item_type)
    (v : value_type) (h hint heap heap1 off : Nat)
    (hres : bucket_type.insert fuel items v h hint true true true heap =
      (items1, heap1, Except.ok off)) :
    items1[off]? = some { locked := true, p := some v, hash := h } ∧
    heap1 = heap + 1 := by
  rcases hloop : bucket_insert_loop fuel items hint true with ⟨li, r⟩
  cases r with
  | error e =>
    rw [bucket_insert_of_loop_error fuel items li e v h hint heap hloop]
      at hres
    exact absurd hres (by simp)
  | ok o =>
    rw [bucket_insert_of_loop_ok fuel items li v h hint heap o hloop] at hres
    rw [Prod.mk.injEq, Prod.mk.injEq] at hres
    obtain ⟨h1, h2, h3⟩ := hres
    injection h3 with h3
    rw [← h1, ← h2, ← h3]
    obtain ⟨it0, hget0, hlk0, hp0⟩ :=
      bucket_insert_loop_ok fuel items li hint o hloop
    rw [modify_at_getElem_self li o _ it0 hget0]
    refine ⟨?_, rfl⟩
    cases it0 with
    | mk lk p hs0 =>
      simp only [item_type.set]
      simp at hlk0
      rw [hlk0]

/-- With a zero-capacity bucket the claim loop never terminates, whatever the
fuel: the scan finds nothing, resize(0 + 0/2) re-publishes a zero-slot array,
and the loop retries forever. -/
theorem bucket_insert_loop_nil (fuel hint : Nat) :
    bucket_insert_loop fuel [] hint true = ([], Except.error cerr.hang) := by
  induction fuel with
  | zero => rfl
  | succ fuel ih =>
    rw [bucket_insert_loop_step_none fuel [] hint (by simp [scan_empty])]
    have hres : (bucket_type.resize ([] : List item_type)
        (([] : List item_type).length + ([] : List item_type).length / 2)
        true).1 = ([] : List item_type) := by
      rw [resize_ok_eq]
      simp
    rw [hres]
    exact ih

/-- Claim C6 counterexample: on a bucket with zero slots — the state of every
freshly constructed bucket — a single-threaded insert never terminates: under
no fuel bound does it return, because the scan finds no slot and
resize(count + count/2) with count zero never grows the bucket, so the retry
loop spins forever (the claim asserts termination for every bucket state,
including a bucket with zero slots). -/
theorem claim_C6_counterexample :
    ¬ ∃ fuel, (bucket_type.insert fuel [] (0, 0) 0 0 true true true 0).2.2 ≠
        Except.error cerr.hang := by
  rintro ⟨fuel, hne⟩
  apply hne
  rw [bucket_insert_of_loop_error fuel [] [] cerr.hang (0, 0) 0 0 0
    (bucket_insert_loop_nil fuel 0)]

/-- Claim C6 as amended: a single-threaded bucket insert terminates whenever
the bucket has at least two slots and the hint is within the slot count: an
iteration that finds no empty slot exits the using scope and calls
resize(count + count/2), which for count at least two strictly grows the slot
array with zeroed tail slots at offsets at or after the hint, so within two
iterations an empty slot is claimed, the value is published into it, and its
offset is returned. (For a bucket with zero or one slots and no claimable
slot at or after the hint, count + count/2 equals count and the loop retries
forever, as the counterexample shows.) -/
theorem claim_C6_insert_terminates (items : List item_type) (v : value_type)
    (h hint heap : Nat) (h2 : 2 ≤ items.length) (hh : hint ≤ items.length) :
    ∃ fuel items1 heap1 off,
      bucket_type.insert fuel items v h hint true true true heap =
        (items1, heap1, Except.ok off) ∧
      items1[off]? = some { locked := true, p := some v, hash := h } := by
  have hloop : ∃ fuel li o,
      bucket_insert_loop fuel items hint true = (li, Except.ok o) := by
    cases hs : scan_empty (items.drop hint) hint with
    | some o =>
      have hstep := bucket_insert_loop_step_some 0 items hint o hs
      exact ⟨1, _, o, hstep⟩
    | none =>
      have hlen : items.length ≤ items.length + items.length / 2 := by omega
      have hresize : (bucket_type.resize items
          (items.length + items.length / 2) true).1 =
          items ++ List.replicate (items.length + items.length / 2 -
            items.length) zero_item := by
        rw [resize_ok_eq, List.take_of_length_le hlen]
      have hrep : 0 < items.length + items.length / 2 - items.length := by
        omega
      have hz : ((bucket_type.resize items
          (items.length + items.length / 2) true).1.drop hint)[
            items.length - hint]? = some zero_item := by
        rw [List.getElem?_drop, hresize]
        have harith : hint + (items.length - hint) = items.length := by omega
        rw [harith]
        rw [List.getElem?_append_right (le_refl items.length)]
        simp only [Nat.sub_self]
        exact List.getElem?_replicate_of_lt hrep
      obtain ⟨o, ho⟩ := scan_empty_mem _ hint
        ⟨zero_item, List.getElem?_mem hz, rfl, rfl⟩
      have hstep1 := bucket_insert_loop_step_none 1 items hint hs
      have hstep2 := bucket_insert_loop_step_some 0 _ hint o ho
      exact ⟨2, _, o, hstep1.trans hstep2⟩
  obtain ⟨fuel, li, o, hloop⟩ := hloop
  obtain ⟨it0, hget0, hlk0, hp0⟩ :=
    bucket_insert_loop_ok fuel items li hint o hloop
  refine ⟨fuel, _, _, o,
    bucket_insert_of_loop_ok fuel items li v h hint heap o hloop, ?_⟩
  rw [modify_at_getElem_self li o _ it0 hget0]
  cases it0 with
  | mk lk p hs0 =>
    simp only [item_type.set]
    simp at hlk0
    rw [hlk0]

/-- Claim C6 witness: on a bucket of two zeroed slots the insert of (1, 2)
under hash 1 terminates with the value published. -/
theorem claim_C6_insert_terminates_witness :
    ∃ fuel items1 heap1 off,
      bucket_type.insert fuel [zero_item, zero_item] (1, 2) 1 0 true true true
          0 = (items1, heap1, Except.ok off) ∧
      items1[off]? = some { locked := true, p := some (1, 2), hash := 1 } :=
  claim_C6_insert_terminates [zero_item, zero_item] (1, 2) 1 0 0 (by decide)
    (by decide)

/-- Claim C1 evaluated at the failing input: a map holding the single live
entry (5, 7) cached under hash 5. erase at the begin iterator does invoke the
bucket remove at the iterator offset — the slot is emptied — and advances the
iterator one step, but the body of erase never touches the _size member, so
the map comes back with size still 1 while no live entry remains. -/
theorem claim_C1_erase_keeps_size :
    (cmap_erase map_single_57 { bi := 0, off := 0 } 1).map
        (fun r => (r.1.size, live_count r.1, r.2.1)) =
      some (1, 0, { bi := 1, off := 0 }) := by
  decide

/-- Claim C3 evaluated at the failing input: a two-slot empty bucket, working
allocation, failing construction. The slot claimed at offset 0 is unlocked and
left empty and the error propagates, as the claim says, but the heap counter
comes back 1, not 0: the catch block deallocates the outer ret pointer, which
is still null because the allocation was bound to a shadowing inner ret, so
the allocated block leaks instead of being deallocated. -/
theorem claim_C3_construct_failure_leaks :
    bucket_type.insert 2 [zero_item, zero_item] (1, 2) 1 0 true true false 0 =
      ([zero_item, zero_item, zero_item], 1,
        Except.error cerr.construct_fail) := by
  decide

/-- Claim C7 evaluated at the failing input: a bucket holding a live slot at
offset 0 and an empty slot at offset 1. operator++ from (bucket 0, offset 0)
moves to (bucket 0, offset 1), which is an empty slot and is not the end
iterator (the end has bucket index 1 here): the increment checks nothing about
slot liveness, contradicting the claim that it never stops on an empty slot
before the end. -/
theorem claim_C7_increment_lands_on_empty :
    iterator.inc map_live_then_empty { bi := 0, off := 0 } =
      { bi := 0, off := 1 } ∧
    (map_live_then_empty.buckets.getD 0 [])[1]? = some zero_item ∧
    ({ bi := 0, off := 1 } : iterator).bi ≠
      map_live_then_empty.buckets.length := by
  decide

/-- Claim C8 witness: the invariant facts at a concrete live slot holding the
pair (5, 7) under hash 5, and the zero tail of a concrete resize. -/
theorem claim_C8_slot_invariant_witness :
    (item_empty { locked := false, p := some (5, 7), hash := 5 } ↔
      (({ locked := false, p := some (5, 7), hash := 5 } : item_type).p = none ∧
        ({ locked := false, p := some (5, 7), hash := 5 } : item_type).hash = 0)) ∧
    ({ locked := false, p := some (5, 7), hash := 5 } : item_type).detach.1.p =
      none ∧
    (bucket_type.resize [] 2 true).1[1]? = some zero_item := by
  have h := claim_C8_slot_invariant
    { locked := false, p := some (5, 7), hash := 5 } (5, 7) 5
  exact ⟨h.2.1 (by decide), (h.2.2.2.1 (by decide)).1,
    h.2.2.2.2 [] 2 1 (by decide) (by decide)⟩

end CUM

namespace CUM

/-- If the skip scan finds no hash match, no slot of the scanned suffix
carries the probed hash. -/
theorem find_scan_none (l : List item_type) (i h : Nat) (e : Option Nat)
    (ea : Bool) (hs : (find_scan l i h e ea).1 = none) :
    ∀ (j : Nat) (it : item_type), l[j]? = some it → it.hash ≠ h := by
  induction l generalizing i e ea with
  | nil => intro j it hj; simp at hj
  | cons hd tl ih =>
    rw [find_scan] at hs
    by_cases h1 : hd.hash = h
    · rw [if_pos h1] at hs; simp at hs
    · rw [if_neg h1] at hs
      intro j it hj
      cases j with
      | zero =>
        simp only [List.getElem?_cons_zero] at hj
        cases hj
        exact h1
      | succ j2 =>
        simp only [List.getElem?_cons_succ] at hj
        by_cases h2 : ea = true ∧ hd.p = none
        · rw [if_pos h2] at hs
          exact ih (i + 1) (some i) false hs j2 it hj
        · rw [if_neg h2] at hs
          exact ih (i + 1) e ea hs j2 it hj

/-- If the skip scan reports a hash match, the reported absolute index is at
or after the base index and the slot there carries the probed hash. -/
theorem find_scan_some (l : List item_type) (i h idx : Nat) (e : Option Nat)
    (ea : Bool) (hs : (find_scan l i h e ea).1 = some idx) :
    i ≤ idx ∧ ∃ it, l[idx - i]? = some it ∧ it.hash = h := by
  induction l generalizing i e ea with
  | nil => simp [find_scan] at hs
  | cons hd tl ih =>
    rw [find_scan] at hs
    by_cases h1 : hd.hash = h
    · rw [if_pos h1] at hs
      simp only at hs
      obtain rfl : i = idx := Option.some.inj hs
      exact ⟨le_refl i, hd, by simp, h1⟩
    · rw [if_neg h1] at hs
      have hstep : ∀ e2 ea2, (find_scan tl (i + 1) h e2 ea2).1 = some idx →
          i ≤ idx ∧ ∃ it, (hd :: tl)[idx - i]? = some it ∧ it.hash = h := by
        intro e2 ea2 hs2
        obtain ⟨hle, it, hget, hh⟩ := ih (i + 1) e2 ea2 hs2
        refine ⟨by omega, it, ?_, hh⟩
        have hsub : idx - i = (idx - (i + 1)) + 1 := by omega
        rw [hsub]
        simpa using hget
      by_cases h2 : ea = true ∧ hd.p = none
      · rw [if_pos h2] at hs
        exact hstep (some i) false hs
      · rw [if_neg h2] at hs
        exact hstep e ea hs

/-- Step equation of bucket find: the scan found no hash match. -/
theorem bucket_find_step_none (fuel : Nat) (items : List item_type)
    (start : Option Nat) (h : Nat) (e e2 : Option Nat) (ea ea2 : Bool)
    (hs : find_scan (items.drop (start.getD 0)) (start.getD 0) h e ea =
      (none, e2, ea2)) :
    bucket_find (fuel + 1) items start h e ea =
      (find_res.not_found, e2, ea2) := by
  simp only [bucket_find, hs]

/-- Step equation of bucket find: the scan reported an index outside the item
array (impossible, but a branch of the embedding). -/
theorem bucket_find_step_oob (fuel : Nat) (items : List item_type)
    (start : Option Nat) (h idx : Nat) (e e2 : Option Nat) (ea ea2 : Bool)
    (hs : find_scan (items.drop (start.getD 0)) (start.getD 0) h e ea =
      (some idx, e2, ea2)) (hit : items[idx]? = none) :
    bucket_find (fuel + 1) items start h e ea =
      (find_res.not_found, e2, ea2) := by
  simp only [bucket_find, hs, hit]

/-- Step equation of bucket find: the matched slot is already locked, so the
blocking lock spins forever. -/
theorem bucket_find_step_locked (fuel : Nat) (items : List item_type)
    (start : Option Nat) (h idx : Nat) (e e2 : Option Nat) (ea ea2 : Bool)
    (it : item_type)
    (hs : find_scan (items.drop (start.getD 0)) (start.getD 0) h e ea =
      (some idx, e2, ea2)) (hit : items[idx]? = some it)
    (hl : it.locked = true) :
    bucket_find (fuel + 1) items start h e ea = (find_res.hang, e2, ea2) := by
  simp only [bucket_find, hs, hit, hl, if_true]

/-- Step equation of bucket find: the matched slot rechecks as live, so it is
returned locked. -/
theorem bucket_find_step_live (fuel : Nat) (items : List item_type)
    (start : Option Nat) (h idx : Nat) (e e2 : Option Nat) (ea ea2 : Bool)
    (it : item_type)
    (hs : find_scan (items.drop (start.getD 0)) (start.getD 0) h e ea =
      (some idx, e2, ea2)) (hit : items[idx]? = some it)
    (hl : it.locked = false) (hp : it.p.isSome = true) :
    bucket_find (fuel + 1) items start h e ea =
      (find_res.found idx, e2, ea2) := by
  simp only [bucket_find, hs, hit, hl, hp]
  simp

/-- Step equation of bucket find: the matched slot rechecks as empty, so it is
unlocked and the scan re-enters at the same index. -/
theorem bucket_find_step_retry (fuel : Nat) (items : List item_type)
    (start : Option Nat) (h idx : Nat) (e e2 : Option Nat) (ea ea2 : Bool)
    (it : item_type)
    (hs : find_scan (items.drop (start.getD 0)) (start.getD 0) h e ea =
      (some idx, e2, ea2)) (hit : items[idx]? = some it)
    (hl : it.locked = false) (hp : it.p.isSome = false) :
    bucket_find (fuel + 1) items start h e ea =
      bucket_find fuel items (some idx) h e2 ea2 := by
  simp only [bucket_find, hs, hit, hl, hp]
  simp

end CUM

namespace CUM

/-- A bucket find that reports a match found a live, unlocked slot carrying
the probed hash at the reported index. -/
theorem bucket_find_found (fuel : Nat) (items : List item_type)
    (start : Option Nat) (h : Nat) (e : Option Nat) (ea : Bool) (idx : Nat)
    (e1 : Option Nat) (ea1 : Bool)
    (hr : bucket_find fuel items start h e ea =
      (find_res.found idx, e1, ea1)) :
    ∃ it, items[idx]? = some it ∧ it.hash = h ∧ it.locked = false ∧
      it.p.isSome = true := by
  induction fuel generalizing start e ea with
  | zero => simp [bucket_find] at hr
  | succ fuel ih =>
    rcases hscan : find_scan (items.drop (start.getD 0)) (start.getD 0) h e ea
      with ⟨r1, e2, ea2⟩
    cases r1 with
    | none =>
      rw [bucket_find_step_none fuel items start h e e2 ea ea2 hscan] at hr
      simp at hr
    | some idx0 =>
      cases hit : items[idx0]? with
      | none =>
        rw [bucket_find_step_oob fuel items start h idx0 e e2 ea ea2 hscan
          hit] at hr
        simp at hr
      | some it =>
        by_cases hl : it.locked = true
        · rw [bucket_find_step_locked fuel items start h idx0 e e2 ea ea2 it
            hscan hit hl] at hr
          simp at hr
        · have hl2 : it.locked = false := by simpa using hl
          by_cases hp : it.p.isSome = true
          · rw [bucket_find_step_live fuel items start h idx0 e e2 ea ea2 it
              hscan hit hl2 hp] at hr
            simp only [Prod.mk.injEq, find_res.found.injEq] at hr
            obtain ⟨rfl, -, -⟩ := hr
            obtain ⟨-, it2, hget2, hh2⟩ :=
              find_scan_some _ _ _ idx0 _ _ (by rw [hscan])
            rw [List.getElem?_drop] at hget2
            have harith : start.getD 0 + (idx0 - start.getD 0) = idx0 := by
              obtain ⟨hle, -⟩ := find_scan_some _ _ _ idx0 _ _ (by rw [hscan])
              omega
            rw [harith, hit] at hget2
            cases hget2
            exact ⟨it, hit, hh2, hl2, hp⟩
          · have hp2 : it.p.isSome = false := by simpa using hp
            rw [bucket_find_step_retry fuel items start h idx0 e e2 ea ea2 it
              hscan hit hl2 hp2] at hr
            exact ih (some idx0) e2 ea2 hr

/-- A bucket find that reports no match scanned every slot at or after its
start index and none of them carries the probed hash. -/
theorem bucket_find_not_found (fuel : Nat) (items : List item_type)
    (start : Option Nat) (h : Nat) (e : Option Nat) (ea : Bool)
    (e1 : Option Nat) (ea1 : Bool)
    (hr : bucket_find fuel items start h e ea =
      (find_res.not_found, e1, ea1)) :
    ∀ (j : Nat) (it : item_type), items[j]? = some it → start.getD 0 ≤ j →
      it.hash ≠ h := by
  induction fuel generalizing start e ea with
  | zero => simp [bucket_find] at hr
  | succ fuel ih =>
    rcases hscan : find_scan (items.drop (start.getD 0)) (start.getD 0) h e ea
      with ⟨r1, e2, ea2⟩
    cases r1 with
    | none =>
      intro j it hj hle
      have hnone := find_scan_none _ _ _ _ _ (by rw [hscan])
      have hj2 : (items.drop (start.getD 0))[j - start.getD 0]? = some it := by
        rw [List.getElem?_drop]
        have harith : start.getD 0 + (j - start.getD 0) = j := by omega
        rwa [harith]
      exact hnone _ it hj2
    | some idx0 =>
      obtain ⟨hle0, it0, hget0, hh0⟩ :=
        find_scan_some _ _ _ idx0 _ _ (by rw [hscan])
      rw [List.getElem?_drop] at hget0
      have harith : start.getD 0 + (idx0 - start.getD 0) = idx0 := by omega
      rw [harith] at hget0
      by_cases hl : it0.locked = true
      · rw [bucket_find_step_locked fuel items start h idx0 e e2 ea ea2 it0
          hscan hget0 hl] at hr
        simp at hr
      · have hl2 : it0.locked = false := by simpa using hl
        by_cases hp : it0.p.isSome = true
        · rw [bucket_find_step_live fuel items start h idx0 e e2 ea ea2 it0
            hscan hget0 hl2 hp] at hr
          simp at hr
        · have hp2 : it0.p.isSome = false := by simpa using hp
          rw [bucket_find_step_retry fuel items start h idx0 e e2 ea ea2 it0
            hscan hget0 hl2 hp2] at hr
          have hforall := ih (some idx0) e2 ea2 hr
          exact absurd hh0 (hforall idx0 it0 hget0 (by simp))

/-- Starting a bucket find at a live, unlocked slot whose cached hash matches
the probe returns that slot at once, with the recording state unchanged. -/
theorem bucket_find_at_match (fuel : Nat) (items : List item_type)
    (idx h : Nat) (e : Option Nat) (ea : Bool) (it : item_type)
    (hit : items[idx]? = some it) (hh : it.hash = h) (hl : it.locked = false)
    (hp : it.p.isSome = true) :
    bucket_find (fuel + 1) items (some idx) h e ea =
      (find_res.found idx, e, ea) := by
  obtain ⟨hlt, heq⟩ := List.getElem?_eq_some_iff.mp hit
  have hdrop : items.drop idx = it :: items.drop (idx + 1) := by
    rw [List.drop_eq_getElem_cons hlt, heq]
  have hscan : find_scan (items.drop ((some idx).getD 0)) ((some idx).getD 0)
      h e ea = (some idx, e, ea) := by
    simp only [Option.getD_some, hdrop, find_scan, if_pos hh]
  exact bucket_find_step_live fuel items (some idx) h idx e e ea ea it hscan
    hit hl hp

end CUM

namespace CUM

/-- Step equation of the insert find phase: the bucket find hangs. -/
theorem insert_find_loop_step_hang (fuel : Nat) (items : List item_type)
    (start : Option Nat) (h k eIdx : Nat) (e1 : Option Nat) (ea1 : Bool)
    (hbf : bucket_find (fuel + 1) items start h none (eIdx == 0) =
      (find_res.hang, e1, ea1)) :
    insert_find_loop (fuel + 1) items start h k eIdx =
      insert_find_res.hang := by
  simp only [insert_find_loop, hbf]

/-- Step equation of the insert find phase: the bucket find reports no match,
so the loop ends fresh with the recorded empty offset. -/
theorem insert_find_loop_step_fresh (fuel : Nat) (items : List item_type)
    (start : Option Nat) (h k eIdx : Nat) (e1 : Option Nat) (ea1 : Bool)
    (hbf : bucket_find (fuel + 1) items start h none (eIdx == 0) =
      (find_res.not_found, e1, ea1)) :
    insert_find_loop (fuel + 1) items start h k eIdx =
      insert_find_res.fresh (if eIdx = 0 then e1.getD 0 else eIdx) := by
  simp only [insert_find_loop, hbf]

/-- Step equation of the insert find phase: a found slot holds an equal key,
so the loop ends as a duplicate at that index. -/
theorem insert_find_loop_step_dup (fuel : Nat) (items : List item_type)
    (start : Option Nat) (h k eIdx idx : Nat) (e1 : Option Nat) (ea1 : Bool)
    (it : item_type) (kv : value_type)
    (hbf : bucket_find (fuel + 1) items start h none (eIdx == 0) =
      (find_res.found idx, e1, ea1))
    (hit : items[idx]? = some it) (hkv : it.p = some kv) (hk : kv.1 = k) :
    insert_find_loop (fuel + 1) items start h k eIdx =
      insert_find_res.dup idx := by
  simp only [insert_find_loop, hbf, hit, hkv, if_pos hk]

/-- Step equation of the insert find phase: a found slot holds a different
key, so the loop continues from the same item. -/
theorem insert_find_loop_step_cont (fuel : Nat) (items : List item_type)
    (start : Option Nat) (h k eIdx idx : Nat) (e1 : Option Nat) (ea1 : Bool)
    (it : item_type) (kv : value_type)
    (hbf : bucket_find (fuel + 1) items start h none (eIdx == 0) =
      (find_res.found idx, e1, ea1))
    (hit : items[idx]? = some it) (hkv : it.p = some kv) (hk : ¬ kv.1 = k) :
    insert_find_loop (fuel + 1) items start h k eIdx =
      insert_find_loop fuel items (some idx) h k
        (if eIdx = 0 then e1.getD 0 else eIdx) := by
  simp only [insert_find_loop, hbf, hit, hkv, if_neg hk]

/-- The find phase, continued from a live, unlocked slot whose hash matches
but whose key differs, revisits that same slot forever: the source passes the
same item pointer back to find, which relocks and returns it again. -/
theorem insert_find_loop_stuck (fuel : Nat) (items : List item_type)
    (idx h k : Nat) (it : item_type) (kv : value_type)
    (hit : items[idx]? = some it) (hh : it.hash = h) (hl : it.locked = false)
    (hp : it.p = some kv) (hk : ¬ kv.1 = k) :
    ∀ eIdx, insert_find_loop fuel items (some idx) h k eIdx =
      insert_find_res.hang := by
  induction fuel with
  | zero => intro eIdx; rfl
  | succ fuel ih =>
    intro eIdx
    rw [insert_find_loop_step_cont fuel items (some idx) h k eIdx idx none
      (eIdx == 0) it kv
      (bucket_find_at_match fuel items idx h none (eIdx == 0) it hit hh hl
        (by simp [hp]))
      hit hp hk]
    exact ih _

/-- A find phase ending as a duplicate found a live slot holding the probed
key under the probed hash at the reported index. -/
theorem insert_find_loop_dup (fuel : Nat) (items : List item_type)
    (start : Option Nat) (h k eIdx idx : Nat)
    (hr : insert_find_loop fuel items start h k eIdx =
      insert_find_res.dup idx) :
    ∃ it kv, items[idx]? = some it ∧ it.p = some kv ∧ kv.1 = k ∧
      it.hash = h := by
  induction fuel generalizing start eIdx with
  | zero => simp [insert_find_loop] at hr
  | succ fuel ih =>
    rcases hbf : bucket_find (fuel + 1) items start h none (eIdx == 0)
      with ⟨r1, e1, ea1⟩
    cases r1 with
    | hang =>
      rw [insert_find_loop_step_hang fuel items start h k eIdx e1 ea1 hbf]
        at hr
      simp at hr
    | not_found =>
      rw [insert_find_loop_step_fresh fuel items start h k eIdx e1 ea1 hbf]
        at hr
      simp at hr
    | found idx0 =>
      obtain ⟨it, hit, hh, hl, hp⟩ :=
        bucket_find_found _ _ _ _ _ _ _ _ _ hbf
      obtain ⟨kv, hkv⟩ := Option.isSome_iff_exists.mp hp
      by_cases hkeq : kv.1 = k
      · rw [insert_find_loop_step_dup fuel items start h k eIdx idx0 e1 ea1
          it kv hbf hit hkv hkeq] at hr
        simp only [insert_find_res.dup.injEq] at hr
        cases hr
        exact ⟨it, kv, hit, hkv, hkeq, hh⟩
      · rw [insert_find_loop_step_cont fuel items start h k eIdx idx0 e1 ea1
          it kv hbf hit hkv hkeq] at hr
        exact ih (some idx0) _ hr

/-- A find phase started at the bucket head that ends with no duplicate
guarantees no live slot of the bucket carries the probed hash. -/
theorem insert_find_loop_fresh (fuel : Nat) (items : List item_type)
    (h k eIdx e0 : Nat)
    (hr : insert_find_loop fuel items none h k eIdx =
      insert_find_res.fresh e0) :
    ∀ (j : Nat) (it : item_type) (kv : value_type), items[j]? = some it →
      it.p = some kv → it.hash ≠ h := by
  cases fuel with
  | zero => simp [insert_find_loop] at hr
  | succ fuel =>
    rcases hbf : bucket_find (fuel + 1) items none h none (eIdx == 0)
      with ⟨r1, e1, ea1⟩
    cases r1 with
    | hang =>
      rw [insert_find_loop_step_hang fuel items none h k eIdx e1 ea1 hbf]
        at hr
      simp at hr
    | not_found =>
      intro j it kv hj hp
      exact bucket_find_not_found _ _ _ _ _ _ _ _ hbf j it hj (by simp)
    | found idx0 =>
      obtain ⟨it, hit, hh, hl, hp⟩ :=
        bucket_find_found _ _ _ _ _ _ _ _ _ hbf
      obtain ⟨kv, hkv⟩ := Option.isSome_iff_exists.mp hp
      by_cases hkeq : kv.1 = k
      · rw [insert_find_loop_step_dup fuel items none h k eIdx idx0 e1 ea1
          it kv hbf hit hkv hkeq] at hr
        simp at hr
      · rw [insert_find_loop_step_cont fuel items none h k eIdx idx0 e1 ea1
          it kv hbf hit hkv hkeq] at hr
        rw [insert_find_loop_stuck fuel items idx0 h k it kv hit hh hl hkv
          hkeq _] at hr
        simp at hr

end CUM

namespace CUM

/-- Unpacking of the well-formedness predicate: each live slot caches the hash
of its key and sits in the bucket its hash selects. -/
theorem wf_map_spec (hasher : Nat → Nat) (m : concurrent_unordered_map)
    (hwf : wf_map hasher m = true) (bIdx : Nat) (b : List item_type)
    (hb : m.buckets[bIdx]? = some b) (j : Nat) (it : item_type)
    (kv : value_type) (hj : b[j]? = some it) (hp : it.p = some kv) :
    it.hash = hasher kv.1 ∧ hasher kv.1 % m.buckets.length = bIdx := by
  simp only [wf_map, List.all_eq_true] at hwf
  have hmem : (bIdx, b) ∈ m.buckets.enum := by
    apply List.getElem?_mem
    rw [List.getElem?_enum, hb]
    rfl
  have h1 := hwf (bIdx, b) hmem it (List.getElem?_mem hj)
  rw [hp] at h1
  simp only [Bool.and_eq_true, beq_iff_eq] at h1
  exact h1

/-- Unpacking of map membership: some bucket holds a live slot with the key. -/
theorem cmap_contains_spec (m : concurrent_unordered_map) (k : Nat)
    (hc : cmap_contains m k = true) :
    ∃ (bIdx : Nat) (b : List item_type) (j : Nat) (it : item_type)
      (kv : value_type), m.buckets[bIdx]? = some b ∧ b[j]? = some it ∧
      it.p = some kv ∧ kv.1 = k := by
  simp only [cmap_contains, List.any_eq_true] at hc
  obtain ⟨b, hmem, hbc⟩ := hc
  simp only [bucket_contains, List.any_eq_true] at hbc
  obtain ⟨it, hitmem, hpred⟩ := hbc
  cases hp : it.p with
  | none => rw [hp] at hpred; simp at hpred
  | some kv =>
    rw [hp] at hpred
    simp only [beq_iff_eq] at hpred
    obtain ⟨bIdx, hbIdx⟩ := List.mem_iff_getElem?.mp hmem
    obtain ⟨j, hj⟩ := List.mem_iff_getElem?.mp hitmem
    exact ⟨bIdx, b, j, it, kv, hbIdx, hj, hp, hpred⟩

/-- Packing of map membership from a concrete live slot. -/
theorem cmap_contains_of (m : concurrent_unordered_map) (k bIdx j : Nat)
    (b : List item_type) (it : item_type) (kv : value_type)
    (hb : m.buckets[bIdx]? = some b) (hj : b[j]? = some it)
    (hp : it.p = some kv) (hk : kv.1 = k) : cmap_contains m k = true := by
  simp only [cmap_contains, List.any_eq_true]
  refine ⟨b, List.getElem?_mem hb, ?_⟩
  simp only [bucket_contains, List.any_eq_true]
  refine ⟨it, List.getElem?_mem hj, ?_⟩
  rw [hp]
  simp [hk]

/-- A bucket with zero slots makes the whole bucket insert hang, whatever the
fuel. -/
theorem bucket_insert_nil_error (fuel : Nat) (v : value_type)
    (h hint heap : Nat) :
    bucket_type.insert fuel [] v h hint true true true heap =
      ([], heap, Except.error cerr.hang) :=
  bucket_insert_of_loop_error fuel [] [] cerr.hang v h hint heap
    (bucket_insert_loop_nil fuel hint)

/-- Step equation of map insert: the find phase hangs. -/
theorem cmap_insert_step_hang (fuel : Nat) (hasher : Nat → Nat)
    (m : concurrent_unordered_map) (v : value_type)
    (ro ao co : Bool) (heap : Nat)
    (hfind : insert_find_loop fuel
      (m.buckets.getD (_get_bucket m (hasher v.1)) []) none (hasher v.1) v.1
      0 = insert_find_res.hang) :
    cmap_insert fuel hasher m v ro ao co heap =
      (m, heap, Except.error cerr.hang) := by
  simp only [cmap_insert, hfind]

/-- Step equation of map insert: the find phase found the key, so the pair
(iterator, false) is returned with the map untouched. -/
theorem cmap_insert_step_dup (fuel : Nat) (hasher : Nat → Nat)
    (m : concurrent_unordered_map) (v : value_type)
    (ro ao co : Bool) (heap idx : Nat)
    (hfind : insert_find_loop fuel
      (m.buckets.getD (_get_bucket m (hasher v.1)) []) none (hasher v.1) v.1
      0 = insert_find_res.dup idx) :
    cmap_insert fuel hasher m v ro ao co heap =
      (m, heap, Except.ok (_get_bucket m (hasher v.1), idx, false)) := by
  simp only [cmap_insert, hfind]

/-- Step equation of map insert: the find phase found no equal key and the
bucket insert succeeded, so the size counter is incremented and the pair
(iterator, true) is returned. -/
theorem cmap_insert_step_fresh_ok (fuel : Nat) (hasher : Nat → Nat)
    (m : concurrent_unordered_map) (v : value_type)
    (ro ao co : Bool) (heap e heap1 off : Nat) (items1 : List item_type)
    (hfind : insert_find_loop fuel
      (m.buckets.getD (_get_bucket m (hasher v.1)) []) none (hasher v.1) v.1
      0 = insert_find_res.fresh e)
    (hins : bucket_type.insert fuel
      (m.buckets.getD (_get_bucket m (hasher v.1)) []) v (hasher v.1) e ro ao
      co heap = (items1, heap1, Except.ok off)) :
    cmap_insert fuel hasher m v ro ao co heap =
      ({ size := m.size + 1,
         buckets := m.buckets.set (_get_bucket m (hasher v.1)) items1 },
        heap1, Except.ok (_get_bucket m (hasher v.1), off, true)) := by
  simp only [cmap_insert, hfind, hins]

/-- Step equation of map insert: the find phase found no equal key and the
bucket insert failed, so the error propagates and the size counter is not
touched. -/
theorem cmap_insert_step_fresh_err (fuel : Nat) (hasher : Nat → Nat)
    (m : concurrent_unordered_map) (v : value_type)
    (ro ao co : Bool) (heap e heap1 : Nat) (er : cerr)
    (items1 : List item_type)
    (hfind : insert_find_loop fuel
      (m.buckets.getD (_get_bucket m (hasher v.1)) []) none (hasher v.1) v.1
      0 = insert_find_res.fresh e)
    (hins : bucket_type.insert fuel
      (m.buckets.getD (_get_bucket m (hasher v.1)) []) v (hasher v.1) e ro ao
      co heap = (items1, heap1, Except.error er)) :
    cmap_insert fuel hasher m v ro ao co heap =
      ({ m with buckets :=
          m.buckets.set (_get_bucket m (hasher v.1)) items1 }, heap1,
        Except.error er) := by
  simp only [cmap_insert, hfind, hins]

end CUM

namespace CUM

/-- Claim C2: whenever a single-threaded map insert of a value completes (all
allocations succeeding), on a well-formed map state: it returns false exactly
when the key of the value is already present; in the false case the map —
size counter included — is unchanged and the returned iterator coordinates
name the existing live slot holding that key; in the true case the size
counter is incremented by exactly one and the returned iterator coordinates
name the freshly published slot holding the value. -/
theorem claim_C2_insert (hasher : Nat → Nat) (m : concurrent_unordered_map)
    (v : value_type) (fuel heap : Nat) (m' : concurrent_unordered_map)
    (heap' bi off : Nat) (isNew : Bool)
    (hwf : wf_map hasher m = true)
    (hres : cmap_insert fuel hasher m v true true true heap =
      (m', heap', Except.ok (bi, off, isNew))) :
    (isNew = false ↔ cmap_contains m v.1 = true) ∧
    (isNew = false → m' = m ∧ ∃ (it : item_type) (kv : value_type),
      (m.buckets.getD bi [])[off]? = some it ∧ it.p = some kv ∧
      kv.1 = v.1) ∧
    (isNew = true → m'.size = m.size + 1 ∧
      (m'.buckets.getD bi [])[off]? =
        some { locked := true, p := some v, hash := hasher v.1 }) := by
  cases hfind : insert_find_loop fuel
      (m.buckets.getD (_get_bucket m (hasher v.1)) []) none (hasher v.1) v.1
      0 with
  | hang =>
    rw [cmap_insert_step_hang fuel hasher m v true true true heap hfind]
      at hres
    simp at hres
  | dup idx =>
    rw [cmap_insert_step_dup fuel hasher m v true true true heap idx hfind]
      at hres
    rw [Prod.mk.injEq, Prod.mk.injEq] at hres
    obtain ⟨hm, hheap, hok⟩ := hres
    injection hok with hok
    rw [Prod.mk.injEq, Prod.mk.injEq] at hok
    obtain ⟨hbi, hoff, hisNew⟩ := hok
    obtain ⟨it, kv, hit, hkv, hk1, hh⟩ :=
      insert_find_loop_dup _ _ _ _ _ _ _ hfind
    have hbucket : m.buckets[_get_bucket m (hasher v.1)]? =
        some (m.buckets.getD (_get_bucket m (hasher v.1)) []) := by
      cases hbq : m.buckets[_get_bucket m (hasher v.1)]? with
      | none =>
        exfalso
        rw [List.getD_eq_getElem?_getD, hbq] at hit
        simp at hit
      | some b =>
        rw [List.getD_eq_getElem?_getD, hbq]
        rfl
    have hcontains : cmap_contains m v.1 = true :=
      cmap_contains_of m v.1 (_get_bucket m (hasher v.1)) idx _ it kv hbucket
        hit hkv hk1
    refine ⟨?_, ?_, ?_⟩
    · rw [← hisNew]
      exact ⟨fun _ => hcontains, fun _ => rfl⟩
    · intro _
      refine ⟨hm.symm, it, kv, ?_, hkv, hk1⟩
      rw [← hbi, ← hoff]
      exact hit
    · intro habs
      rw [← hisNew] at habs
      exact absurd habs (by simp)
  | fresh e =>
    rcases hins : bucket_type.insert fuel
        (m.buckets.getD (_get_bucket m (hasher v.1)) []) v (hasher v.1) e
        true true true heap with ⟨items1, heap1, r⟩
    cases r with
    | error er =>
      rw [cmap_insert_step_fresh_err fuel hasher m v true true true heap e
        heap1 er items1 hfind hins] at hres
      simp at hres
    | ok off0 =>
      rw [cmap_insert_step_fresh_ok fuel hasher m v true true true heap e
        heap1 off0 items1 hfind hins] at hres
      rw [Prod.mk.injEq, Prod.mk.injEq] at hres
      obtain ⟨hm, hheap, hok⟩ := hres
      injection hok with hok
      rw [Prod.mk.injEq, Prod.mk.injEq] at hok
      obtain ⟨hbi, hoff, hisNew⟩ := hok
      have hnol := insert_find_loop_fresh _ _ _ _ _ _ hfind
      have hnc : cmap_contains m v.1 ≠ true := by
        intro hc
        obtain ⟨bIdx, b, j, it, kv, hb, hj, hp, hk1⟩ :=
          cmap_contains_spec m v.1 hc
        obtain ⟨hhash, hbidx⟩ := wf_map_spec hasher m hwf bIdx b hb j it kv
          hj hp
        have hbieq : bIdx = _get_bucket m (hasher v.1) := by
          rw [← hbidx, hk1]
          rfl
        have hbeq : b = m.buckets.getD (_get_bucket m (hasher v.1)) [] := by
          rw [List.getD_eq_getElem?_getD, ← hbieq, hb]
          rfl
        apply hnol j it kv (by rw [← hbeq]; exact hj) hp
        rw [hhash, hk1]
      have hlenpos : _get_bucket m (hasher v.1) < m.buckets.length := by
        rcases Nat.eq_zero_or_pos m.buckets.length with hz | hpos
        · exfalso
          have hempty : m.buckets.getD (_get_bucket m (hasher v.1)) [] = [] := by
            rw [List.length_eq_zero] at hz
            rw [hz]
            rfl
          rw [hempty, bucket_insert_nil_error fuel v (hasher v.1) e heap]
            at hins
          simp at hins
        · exact Nat.mod_lt _ hpos
      obtain ⟨hentry, hheap2⟩ := bucket_insert_ok fuel _ items1 v
        (hasher v.1) e heap heap1 off0 hins
      refine ⟨?_, ?_, ?_⟩
      · rw [← hisNew]
        exact ⟨fun habs => absurd habs (by simp),
          fun hcon => (hnc hcon).elim⟩
      · intro habs
        rw [← hisNew] at habs
        exact absurd habs (by simp)
      · intro _
        have hget2 : (m.buckets.set (_get_bucket m (hasher v.1))
            items1).getD (_get_bucket m (hasher v.1)) [] = items1 := by
          rw [List.getD_eq_getElem?_getD,
            List.getElem?_set_self (by simpa using hlenpos)]
          rfl
        constructor
        · rw [← hm]
        · rw [← hm, ← hbi, ← hoff]
          show ((m.buckets.set (_get_bucket m (hasher v.1))
              items1).getD (_get_bucket m (hasher v.1)) [])[off0]? = _
          rw [hget2]
          exact hentry

/-- Claim C2 witness: inserting (5, 9) into the one-bucket map already holding
the key 5 (as the live entry (5, 7)) returns false with the iterator at the
existing slot and the map unchanged. -/
theorem claim_C2_insert_witness :
    (false = false ↔ cmap_contains map_single_57 (5, 9).1 = true) ∧
    (false = false → map_single_57 = map_single_57 ∧
      ∃ (it : item_type) (kv : value_type),
        (map_single_57.buckets.getD 0 [])[0]? = some it ∧ it.p = some kv ∧
        kv.1 = (5, 9).1) ∧
    (false = true → map_single_57.size = map_single_57.size + 1 ∧
      (map_single_57.buckets.getD 0 [])[0]? =
        some { locked := true, p := some (5, 9), hash := id (5, 9).1 }) :=
  claim_C2_insert id map_single_57 (5, 9) 3 0 map_single_57 0 0 0 false
    (by decide) (by decide)

end CUM
